import Mathlib

/-!
Verification development for the air-quality dashboard (`src/dashboard.py`).

The dashboard is a single linear pipeline: load a CSV, derive a `datetime`
column from the `year`/`month`/`day`/`hour` fields, enrich with a
wind-direction label, filter by station / season / date range, and compute
KPIs, group means and a correlation matrix over the filtered view.

This file shallowly embeds that pipeline:
* a table is a `List` of rows;
* pandas boolean-mask filtering is `List.filter`;
* pandas `sort_values` is a sort (`List.insertionSort`) on the derived key;
* nullable numeric columns are `Option ℚ` (pandas `NaN` is `none`), and a
  pandas reduction that yields `NaN` (mean/max of an empty or all-missing
  series, undefined correlation) is modelled as `none`;
* `Series.mode()` is embedded with its documented behaviour: missing values
  aside, it returns the most frequent values sorted in ascending order, and
  the dashboard subscripts the result at position 0 (`Option` models the
  possible out-of-bounds subscript on an empty series);
* `DataFrame.corr()` is pairwise Pearson correlation, with an entry `none`
  whenever either column of a pair has zero variance over the pairwise
  complete observations (pandas produces `NaN` there).
-/

/-- The day-granularity value `df["datetime"].dt.date`. -/
structure Date where
  year : Nat
  month : Nat
  day : Nat
deriving DecidableEq, Repr

/-- Python `date` comparison `a <= b` (lexicographic on year, month, day),
as used by the two date-bound mask terms of the filter. -/
def Date.le (a b : Date) : Bool :=
  decide (a.year < b.year) ||
    (decide (a.year = b.year) &&
      (decide (a.month < b.month) ||
        (decide (a.month = b.month) && decide (a.day ≤ b.day))))

/-- One row of the base table `df`, with the columns the dashboard reads.
`dtDate`/`dtHour` are the components of the derived `datetime` column
(`.dt.date` and `.dt.hour`); `hour` is the CSV's own `hour` column; the nine
numeric columns (`PM2.5`, `PM10`, `SO2`, `NO2`, `CO`, `O3`, `TEMP`, `WSPM`,
`PSI`) are nullable. -/
structure Row where
  station : String
  season : String
  dtDate : Date
  dtHour : Nat
  hour : Nat
  pm25 : Option ℚ
  pm10 : Option ℚ
  so2 : Option ℚ
  no2 : Option ℚ
  co : Option ℚ
  o3 : Option ℚ
  temp : Option ℚ
  wspm : Option ℚ
  psi : Option ℚ
  airQuality : String
  wd : String
  windDirectionFull : Option String
deriving DecidableEq, Repr

/-! ## Data loader (`load_data`, dashboard.py lines 19–32)

`pd.to_datetime(df[["year", "month", "day", "hour"]], errors="coerce")`
assembles the timestamp in two stages:

1. the date is parsed from `year*10000 + month*100 + day` with format
   `"%Y%m%d"`; a month or day out of range for the Gregorian calendar, or a
   date whose midnight falls outside the pandas `Timestamp` range
   (`Timestamp.min` = 1677-09-21 00:12:43.145224193, `Timestamp.max` =
   2262-04-11 23:47:16.854775807 — so at midnight granularity the parse
   succeeds exactly for 1677-09-22 through 2262-04-11), coerces to `NaT`;
2. the `hour` column is then ADDED as a timedelta, so an hour ≥ 24 does not
   invalidate the row: its timestamp rolls over into the following day(s).
   An hour too large for an int64-nanosecond timedelta (hour > 2562047)
   makes the timedelta coerce to `NaT` and the sum is `NaT`.

`dropna` then removes the `NaT` rows and `sort_values("datetime")` sorts the
rest by the derived instant.  When stage 2 pushes an in-range date past
`Timestamp.max`, pandas raises `OutOfBoundsDatetime` instead of coercing;
the loader theorem carries that no-overflow side condition as a
hypothesis — outside it the dashboard itself dies before producing a
table. -/

/-- Raw CSV row as seen by the loader: the four calendar fields. -/
structure RawRow where
  year : Nat
  month : Nat
  day : Nat
  hour : Nat
deriving DecidableEq, Repr

def isLeapYear (y : Nat) : Bool :=
  (y % 4 == 0 && y % 100 != 0) || y % 400 == 0

def daysInMonth (y m : Nat) : Nat :=
  if m == 2 then (if isLeapYear y then 29 else 28)
  else if m == 4 || m == 6 || m == 9 || m == 11 then 30
  else 31

/-- Days before month `m` in year `y` (0 for January). -/
def daysBeforeMonth (y m : Nat) : Nat :=
  (List.range (m - 1)).foldl (fun acc k => acc + daysInMonth y (k + 1)) 0

/-- Proleptic-Gregorian absolute day count: 0001-01-01 is day 0, and
consecutive calendar days differ by exactly 1 (so adding hours below rolls
over month and year boundaries exactly as real timestamp arithmetic does). -/
def dayNumber (y m d : Nat) : Nat :=
  (y - 1) * 365 + (y - 1) / 4 - (y - 1) / 100 + (y - 1) / 400 +
    daysBeforeMonth y m + (d - 1)

/-- First date whose midnight is not before `pd.Timestamp.min`: 1677-09-22. -/
def minValidDayNumber : Nat := dayNumber 1677 9 22

/-- Last date whose midnight is not after `pd.Timestamp.max`: 2262-04-11. -/
def maxValidDayNumber : Nat := dayNumber 2262 4 11

/-- Largest whole number of hours representable as an int64-nanosecond
timedelta: `(2^63 - 1) / (3600 * 10^9)` rounded down. -/
def maxTimedeltaHours : Nat := 2562047

/-- Last whole-hour instant inside the pandas `Timestamp` range:
2262-04-11 23:00. -/
def maxHourKey : Nat := maxValidDayNumber * 24 + 23

/-- Stage 1 of `pd.to_datetime(..., errors="coerce")`: the `%Y%m%d` parse of
the assembled year/month/day, as an absolute day count; `NaT` (= `none`)
when the month or day is out of Gregorian range or the date lies outside
the `Timestamp` range. -/
def ymdToDatetime (r : RawRow) : Option Nat :=
  if 1 ≤ r.month ∧ r.month ≤ 12 ∧ 1 ≤ r.day ∧ r.day ≤ daysInMonth r.year r.month ∧
      minValidDayNumber ≤ dayNumber r.year r.month r.day ∧
      dayNumber r.year r.month r.day ≤ maxValidDayNumber
  then some (dayNumber r.year r.month r.day)
  else none

/-- The instant "midnight of `(year, month, day)` plus `hour` hours", as an
absolute whole-hour count.  Because the count is absolute, an hour ≥ 24
rolls over into the following day(s), exactly like pandas' timedelta
addition. -/
def tsKey (r : RawRow) : Nat :=
  dayNumber r.year r.month r.day * 24 + r.hour

/-- Both stages of `pd.to_datetime(..., errors="coerce")` on one row: the
`%Y%m%d` date plus the `hour` column added as a timedelta.  The result is
`NaT` (= `none`) exactly when stage 1 fails or the hour does not fit an
int64 timedelta; an hour ≥ 24 is NOT a failure — it rolls the timestamp
over. -/
def to_datetime (r : RawRow) : Option Nat :=
  if r.hour ≤ maxTimedeltaHours then
    (ymdToDatetime r).map (fun d => d * 24 + r.hour)
  else none

instance decTsLeRel : DecidableRel (fun a b : RawRow => tsKey a ≤ tsKey b) :=
  fun a b => inferInstanceAs (Decidable (tsKey a ≤ tsKey b))

/-- `load_data` minus the file read: derive `datetime`, drop the rows where
derivation failed, sort by the derived instant. -/
def load_data (rows : List RawRow) : List RawRow :=
  List.insertionSort (fun a b => tsKey a ≤ tsKey b)
    (rows.filter (fun r => (to_datetime r).isSome))

/-! ## Wind-direction enrichment (dashboard.py lines 39–58) -/

def WIND_DIR_MAP : List (String × String) :=
  [("N", "North"),
   ("NNE", "North-Northeast"),
   ("NE", "Northeast"),
   ("ENE", "East-Northeast"),
   ("E", "East"),
   ("ESE", "East-Southeast"),
   ("SE", "Southeast"),
   ("SSE", "South-Southeast"),
   ("S", "South"),
   ("SSW", "South-Southwest"),
   ("SW", "Southwest"),
   ("WSW", "West-Southwest"),
   ("W", "West"),
   ("WNW", "West-Northwest"),
   ("NW", "Northwest"),
   ("NNW", "North-Northwest")]

/-- `Series.map` with a dict: lookup, absent (`NaN`) when unmapped. -/
def windLookup (c : String) : Option String :=
  WIND_DIR_MAP.lookup c

/-- `df["wind_direction_full"] = df["wd"].map(WIND_DIR_MAP)`, per row. -/
def addWindDirectionFull (r : Row) : Row :=
  { r with windDirectionFull := windLookup r.wd }

/-! ## Sidebar filter state and the filter engine (dashboard.py lines 63–104) -/

/-- The widget values the filter mask reads: the two multiselects and the
two bounds already extracted from the date-range widget. -/
structure Sel where
  stations : List String
  seasons : List String
  startDate : Date
  endDate : Date

/-- The value of `st.sidebar.date_input` is a tuple of the dates picked so
far; the filter reads `date_range[0]` and `date_range[1]`.  `none` models
the `IndexError` a subscript raises when the tuple is too short. -/
def dateRangeBounds (dr : List Date) : Option (Date × Date) :=
  match dr.get? 0, dr.get? 1 with
  | some a, some b => some (a, b)
  | _, _ => none

/-- `filtered_df` (lines 99–104): the conjunction of the four mask terms —
`df["station"].isin(stations)`, `df["season"].isin(seasons)`,
`df["datetime"].dt.date >= date_range[0]`,
`df["datetime"].dt.date <= date_range[1]`. -/
def applyFilters (df : List Row) (sel : Sel) : List Row :=
  df.filter (fun r =>
    sel.stations.contains r.station &&
    sel.seasons.contains r.season &&
    Date.le sel.startDate r.dtDate &&
    Date.le r.dtDate sel.endDate)

/-! ## KPI metrics (dashboard.py lines 114–119) -/

/-- Code-point lexicographic `<=` on char lists, the order Python (and hence
pandas) uses to sort strings. -/
def charListLe : List Char → List Char → Bool
  | [], _ => true
  | _ :: _, [] => false
  | c :: cs, d :: ds => decide (c < d) || (c == d && charListLe cs ds)

/-- Python string `<=` by code points. -/
def strLe (a b : String) : Bool :=
  charListLe a.toList b.toList

instance decStrLeRel : DecidableRel (fun a b : String => strLe a b = true) :=
  fun a b => inferInstanceAs (Decidable (strLe a b = true))

/-- `Series.mode()`: the values of maximal count, returned in ascending
sorted order (per the pandas contract for `mode`). -/
def seriesMode (l : List String) : List String :=
  List.insertionSort (fun a b : String => strLe a b = true)
    (l.dedup.filter (fun v => l.all (fun w => decide (l.count w ≤ l.count v))))

/-- `mode()[0]`: position 0 of the mode series; `none` models the
out-of-bounds subscript (a raised `KeyError`) on an empty mode series. -/
def mode0 (l : List String) : Option String :=
  (seriesMode l).head?

/-- Modelled from the spec: the spec's stated tie-break for the modal KPI,
"ties broken by first-encountered order" — the first value of the series
whose count is maximal.  Stated only to compare with the code's
`mode0`; the code (pandas `mode()[0]`) is embedded above. -/
def firstEncounteredMode (l : List String) : Option String :=
  (l.filter (fun v => l.all (fun w => decide (l.count w ≤ l.count v)))).head?

/-- `Series.mean()`: arithmetic mean of the present values, `NaN` (= `none`)
when there are none. -/
def seriesMean (xs : List (Option ℚ)) : Option ℚ :=
  let vs := xs.filterMap id
  if vs.length = 0 then none else some (vs.sum / (vs.length : ℚ))

/-- `Series.max()`: maximum of the present values, `NaN` (= `none`) when
there are none. -/
def seriesMax (xs : List (Option ℚ)) : Option ℚ :=
  (xs.filterMap id).max?

/-- `filtered_df['PSI'].mean()` (line 116). -/
def kpiAveragePSI (v : List Row) : Option ℚ :=
  seriesMean (v.map Row.psi)

/-- `filtered_df['PSI'].max()` (line 117). -/
def kpiMaximumPSI (v : List Row) : Option ℚ :=
  seriesMax (v.map Row.psi)

/-- `filtered_df["Air_Quality"].mode()[0]` (line 118). -/
def kpiMostCommonAQ (v : List Row) : Option String :=
  mode0 (v.map Row.airQuality)

/-- `len(filtered_df)` (line 119). -/
def kpiTotalRecords (v : List Row) : Nat :=
  v.length

/-- The four KPI values of lines 116–119, all read from `filtered_df`. -/
def kpis (df : List Row) (sel : Sel) : Option ℚ × Option ℚ × Option String × Nat :=
  (kpiAveragePSI (applyFilters df sel),
   kpiMaximumPSI (applyFilters df sel),
   kpiMostCommonAQ (applyFilters df sel),
   kpiTotalRecords (applyFilters df sel))

/-! ## The hourly-pattern column write (dashboard.py line 253)

`filtered_df["hour"] = filtered_df["datetime"].dt.hour` assigns the
derived datetime's hour into the (pre-existing) `hour` column of the
filtered view; it is the only statement after line 104 that writes into
`filtered_df`. -/

/-- Pairwise complete observations of two columns: the row positions where
both values are present. -/
def completePairs (xs ys : List (Option ℚ)) : List (ℚ × ℚ) :=
  (xs.zip ys).filterMap (fun p =>
    match p with
    | (some a, some b) => some (a, b)
    | _ => none)

/-- `n·Σxy − Σx·Σy`, the numerator of Pearson's r in its product-moment
shortcut form (the shared positive scale factors cancel in the quotient). -/
def sNum (ps : List (ℚ × ℚ)) : ℚ :=
  (ps.length : ℚ) * (ps.map (fun p => p.1 * p.2)).sum
    - (ps.map Prod.fst).sum * (ps.map Prod.snd).sum

/-- `n·Σx² − (Σx)²` over the first components. -/
def sXX (ps : List (ℚ × ℚ)) : ℚ :=
  sNum (ps.map (fun p => (p.1, p.1)))

/-- `n·Σy² − (Σy)²` over the second components. -/
def sYY (ps : List (ℚ × ℚ)) : ℚ :=
  sNum (ps.map (fun p => (p.2, p.2)))

/-- One entry of `DataFrame.corr()`: Pearson's r over the pairwise complete
observations, `NaN` (= `none`) when either column has zero variance there
(this covers the empty and single-observation cases). -/
noncomputable def pearson (xs ys : List (Option ℚ)) : Option ℝ :=
  if sXX (completePairs xs ys) = 0 ∨ sYY (completePairs xs ys) = 0 then none
  else some ((sNum (completePairs xs ys) : ℝ) /
    Real.sqrt ((sXX (completePairs xs ys) : ℝ) * (sYY (completePairs xs ys) : ℝ)))

/-- The nine numeric columns of `corr_cols` (line 292). -/
inductive Col
  | PM25 | PM10 | SO2 | NO2 | CO | O3 | TEMP | WSPM | PSI
deriving DecidableEq, Repr

def corr_cols : List Col :=
  [Col.PM25, Col.PM10, Col.SO2, Col.NO2, Col.CO, Col.O3, Col.TEMP, Col.WSPM, Col.PSI]

def colVal : Col → Row → Option ℚ
  | Col.PM25 => Row.pm25
  | Col.PM10 => Row.pm10
  | Col.SO2 => Row.so2
  | Col.NO2 => Row.no2
  | Col.CO => Row.co
  | Col.O3 => Row.o3
  | Col.TEMP => Row.temp
  | Col.WSPM => Row.wspm
  | Col.PSI => Row.psi

/-- Entry `(i, j)` of `corr = filtered_df[corr_cols].corr()` (line 293). -/
noncomputable def corrEntry (v : List Row) (i j : Col) : Option ℝ :=
  pearson (v.map (colVal i)) (v.map (colVal j))

/-! ## Concrete sample data -/

def sampleDate : Date := ⟨2013, 3, 1⟩

def sampleRow : Row :=
  { station := "Aotizhongxin", season := "Spring",
    dtDate := sampleDate, dtHour := 5, hour := 5,
    pm25 := some 8, pm10 := some 12, so2 := some 3, no2 := some 10,
    co := some 300, o3 := some 77, temp := some 2, wspm := some 4,
    psi := some 5, airQuality := "Good", wd := "NNE",
    windDirectionFull := some "North-Northeast" }

def sampleSel : Sel :=
  ⟨["Aotizhongxin"], ["Spring"], sampleDate, sampleDate⟩

def selEmptyStations : Sel :=
  ⟨[], ["Spring"], sampleDate, sampleDate⟩

/-! ## Helper lemmas -/

theorem lookup_eq_none_of_forall_ne {β : Type} (l : List (String × β)) (c : String)
    (h : ∀ p ∈ l, c ≠ p.1) : l.lookup c = none := by
  induction l with
  | nil => rfl
  | cons p t ih =>
    have hne : (c == p.1) = false := by
      simp only [beq_eq_false_iff_ne, ne_eq]
      exact h p (List.mem_cons_self p t)
    obtain ⟨k, v⟩ := p
    simp only [List.lookup]
    rw [hne]
    exact ih (fun q hq => h q (List.mem_cons_of_mem _ hq))

/-! ## Claims -/

/-- C9: filtering is idempotent — applying the same filter selection to the
output of the filter yields the same row set. -/
theorem c9_filter_idempotent (df : List Row) (sel : Sel) :
    applyFilters (applyFilters df sel) sel = applyFilters df sel := by
  simp [applyFilters, List.filter_filter]

/-- C2: the filter returns exactly the rows whose station is in the selected
station set, whose season is in the selected season set, and whose
day-granularity date lies in the inclusive selected interval; if either
selected set is empty the result is empty (no implicit select-all). -/
theorem c2_filter_contract (df : List Row) (sel : Sel) :
    (∀ r : Row, r ∈ applyFilters df sel ↔
        r ∈ df ∧ r.station ∈ sel.stations ∧ r.season ∈ sel.seasons ∧
          Date.le sel.startDate r.dtDate = true ∧ Date.le r.dtDate sel.endDate = true) ∧
    (sel.stations = [] → applyFilters df sel = []) ∧
    (sel.seasons = [] → applyFilters df sel = []) := by
  refine ⟨fun r => ?_, fun h => ?_, fun h => ?_⟩
  · simp [applyFilters, List.mem_filter, and_assoc]
  · simp [applyFilters, h]
  · simp [applyFilters, h]

/-- C2 witness: at a concrete base table, the selection keeps the matching
row, and an empty station multiselect yields the empty view. -/
theorem c2_filter_contract_witness :
    (sampleRow ∈ applyFilters [sampleRow] sampleSel ↔
        sampleRow ∈ [sampleRow] ∧ sampleRow.station ∈ sampleSel.stations ∧
          sampleRow.season ∈ sampleSel.seasons ∧
          Date.le sampleSel.startDate sampleRow.dtDate = true ∧
          Date.le sampleRow.dtDate sampleSel.endDate = true) ∧
    applyFilters [sampleRow] selEmptyStations = [] :=
  ⟨(c2_filter_contract [sampleRow] sampleSel).1 sampleRow,
   (c2_filter_contract [sampleRow] selEmptyStations).2.1 rfl⟩

/-- C5 counterexample: when the date-range widget holds a single date, the
subscript at index 1 is out of bounds (`none`), so the filter step is not
well-defined there — in the dashboard, `date_range[1]` raises `IndexError`. -/
theorem c5_counterexample :
    dateRangeBounds [sampleDate] = none ∧
    ([sampleDate] : List Date).get? 1 = none :=
  ⟨rfl, rfl⟩

/-- C5 amended: reading both filter bounds from the date-range widget value
is well-defined exactly when the selection holds at least two dates; with a
single selected date, the index-1 subscript is out of bounds. -/
theorem c5_amended (dr : List Date) :
    (dateRangeBounds dr).isSome = true ↔ 2 ≤ dr.length := by
  match dr with
  | [] => simp [dateRangeBounds]
  | [a] => simp [dateRangeBounds]
  | a :: b :: t => simp [dateRangeBounds]

/-- C8: the wind-direction enrichment is a fixed 16-entry lookup adding one
column: every one of the 16 compass codes maps to its full name (in
particular `"NNE"` to `"North-Northeast"`), every other code yields an
absent value with no error path, and nothing else in the row changes. -/
theorem c8_wind_map :
    WIND_DIR_MAP.length = 16 ∧
    windLookup "NNE" = some "North-Northeast" ∧
    (∀ p ∈ WIND_DIR_MAP, windLookup p.1 = some p.2) ∧
    (∀ c : String, (∀ p ∈ WIND_DIR_MAP, c ≠ p.1) → windLookup c = none) ∧
    (∀ r : Row, addWindDirectionFull r =
        { r with windDirectionFull := windLookup r.wd }) :=
  ⟨rfl, rfl, by decide,
   fun c hc => lookup_eq_none_of_forall_ne WIND_DIR_MAP c hc,
   fun _ => rfl⟩

/-- C8 witness: the unrecognized code `"XX"` maps to an absent label, and the
table entry `("N", "North")` round-trips through the lookup. -/
theorem c8_wind_map_witness :
    windLookup "XX" = none ∧ windLookup "N" = some "North" :=
  ⟨c8_wind_map.2.2.2.1 "XX" (by decide),
   c8_wind_map.2.2.1 ("N", "North") (by decide)⟩

/-- C1: at the failing input — a selection with an empty station set — the
filtered view is empty; the mean and max KPIs are `NaN` (`none`) and the
record count is 0, and `mode()` returns an empty series, so the `[0]`
subscript of line 118 is out of bounds (`none` here): the dashboard raises a
`KeyError` instead of showing a "no data" state. -/
theorem c1_empty_filter_kpis :
    applyFilters [sampleRow] selEmptyStations = [] ∧
    kpis [sampleRow] selEmptyStations = (none, none, none, 0) ∧
    seriesMode [] = [] :=
  ⟨rfl, rfl, rfl⟩

theorem date_le_iff (a b : Date) :
    Date.le a b = true ↔
      a.year < b.year ∨ (a.year = b.year ∧
        (a.month < b.month ∨ (a.month = b.month ∧ a.day ≤ b.day))) := by
  simp [Date.le, and_assoc]

theorem date_le_refl (a : Date) : Date.le a a = true := by
  simp [date_le_iff]

theorem date_le_antisymm {a b : Date} (h1 : Date.le a b = true)
    (h2 : Date.le b a = true) : a = b := by
  rw [date_le_iff] at h1 h2
  cases a
  cases b
  simp_all [Date.mk.injEq]
  omega

/-- C6: when the selected date interval is a single day `d`, the filtered
view contains a row of the base table iff its station and season match and
its day-granularity date equals `d` — no constraint on the hour, so every
hourly row 00:00–23:00 of day `d` is kept and rows of all other days are
excluded; both bounds are inclusive and compared at day granularity. -/
theorem c6_single_day (df : List Row) (sel : Sel) (d : Date)
    (h1 : sel.startDate = d) (h2 : sel.endDate = d) :
    ∀ r : Row, r ∈ applyFilters df sel ↔
      r ∈ df ∧ r.station ∈ sel.stations ∧ r.season ∈ sel.seasons ∧ r.dtDate = d := by
  intro r
  have key : ∀ x : Date, (Date.le d x = true ∧ Date.le x d = true) ↔ x = d := by
    intro x
    constructor
    · rintro ⟨ha, hb⟩
      exact (date_le_antisymm ha hb).symm
    · rintro rfl
      exact ⟨date_le_refl _, date_le_refl _⟩
  simp only [applyFilters, List.mem_filter, Bool.and_eq_true, h1, h2]
  constructor
  · rintro ⟨hd, ⟨⟨hst, hse⟩, hge⟩, hle⟩
    refine ⟨hd, ?_, ?_, (key r.dtDate).mp ⟨hge, hle⟩⟩
    · simpa using hst
    · simpa using hse
  · rintro ⟨hd, hst, hse, hdd⟩
    refine ⟨hd, ⟨⟨?_, ?_⟩, ((key r.dtDate).mpr hdd).1⟩, ((key r.dtDate).mpr hdd).2⟩
    · simpa using hst
    · simpa using hse

/-- C6 witness: at a concrete base table and a concrete single-day
selection, the characterization evaluates on the sample row. -/
theorem c6_single_day_witness :
    sampleRow ∈ applyFilters [sampleRow] sampleSel ↔
      sampleRow ∈ [sampleRow] ∧ sampleRow.station ∈ sampleSel.stations ∧
        sampleRow.season ∈ sampleSel.seasons ∧ sampleRow.dtDate = sampleDate :=
  c6_single_day [sampleRow] sampleSel sampleDate rfl rfl sampleRow

/-! ## Loader claim -/

instance : IsTrans RawRow (fun a b => tsKey a ≤ tsKey b) :=
  ⟨fun _ _ _ hab hbc => Nat.le_trans hab hbc⟩

instance : IsTotal RawRow (fun a b => tsKey a ≤ tsKey b) :=
  ⟨fun a b => Nat.le_total (tsKey a) (tsKey b)⟩

/-- The row survives `dropna` exactly when its `%Y%m%d` date parses (month
and day in Gregorian range, date inside the `Timestamp` range) and its hour
fits an int64 timedelta — the hour's size is otherwise unconstrained. -/
theorem to_datetime_isSome_iff (r : RawRow) :
    (to_datetime r).isSome = true ↔
      ((1 ≤ r.month ∧ r.month ≤ 12 ∧ 1 ≤ r.day ∧
        r.day ≤ daysInMonth r.year r.month ∧
        minValidDayNumber ≤ dayNumber r.year r.month r.day ∧
        dayNumber r.year r.month r.day ≤ maxValidDayNumber) ∧
       r.hour ≤ maxTimedeltaHours) := by
  rw [to_datetime, ymdToDatetime]
  by_cases hh : r.hour ≤ maxTimedeltaHours
  · rw [if_pos hh]
    split
    · rename_i hc
      simp [hc, hh]
    · rename_i hc
      simp [hc, hh]
  · rw [if_neg hh]
    simp [hh]

/-- Modelled from the spec: "a valid calendar instant" built from a row's
year/month/day/hour — month, day and hour all in range for the Gregorian
calendar.  Stated only to compare with the code's `to_datetime`, which is
embedded above. -/
def validCalendarInstant (r : RawRow) : Bool :=
  decide (1 ≤ r.month) && decide (r.month ≤ 12) && decide (1 ≤ r.day) &&
    decide (r.day ≤ daysInMonth r.year r.month) && decide (r.hour ≤ 23)

/-- Hour 25 is not a valid calendar instant, yet pandas keeps the row with
its timestamp rolled over to 2013-01-02 01:00. -/
def rawHourRoll : RawRow := ⟨2013, 1, 1, 25⟩

/-- A valid calendar instant outside the pandas `Timestamp` range: the
`%Y%m%d` parse coerces it to `NaT` and the row is dropped. -/
def rawYearOld : RawRow := ⟨1500, 1, 1, 0⟩

/-- C7 counterexample: the loader does NOT discard exactly the rows whose
fields fail to be a valid calendar instant.  The hour-25 row is not a valid
calendar instant but is kept, and its derived timestamp is the instant of
`(2013, 1, 2, 1)` — rolled over, hence also different from "the calendar
instant built from that row's year/month/day/hour"; conversely the valid
instant 1500-01-01 00:00 is discarded because its date lies outside the
pandas `Timestamp` range. -/
theorem c7_counterexample :
    validCalendarInstant rawHourRoll = false ∧
    load_data [rawHourRoll] = [rawHourRoll] ∧
    to_datetime rawHourRoll = some (tsKey ⟨2013, 1, 2, 1⟩) ∧
    validCalendarInstant rawYearOld = true ∧
    load_data [rawYearOld] = [] :=
  ⟨by decide, by decide, by decide, by decide, by decide⟩

/-- C7 amended: the loader assembles each row's date from year/month/day —
a row is dropped exactly when its month or day is out of Gregorian range,
its date lies outside the pandas `Timestamp` range (1677-09-22 through
2262-04-11), or its hour exceeds the int64 timedelta range — and then adds
the hour as a time offset, so an hour ≥ 24 rolls the timestamp into the
following day(s) instead of invalidating the row.  On every table where the
offset timestamps of kept rows stay inside the `Timestamp` range
(hypothesis `hnoflow`; beyond it pandas raises `OutOfBoundsDatetime` and
the dashboard dies before producing a table), the loader returns exactly
the kept rows, each carrying the derived offset timestamp, ordered
non-decreasing by that timestamp. -/
theorem c7_load_data (rows : List RawRow)
    (hnoflow : ∀ r ∈ rows, (to_datetime r).isSome = true → tsKey r ≤ maxHourKey) :
    (load_data rows).Perm (rows.filter (fun r => (to_datetime r).isSome)) ∧
    (∀ r : RawRow, r ∈ load_data rows ↔ r ∈ rows ∧ (to_datetime r).isSome = true) ∧
    (∀ r : RawRow, (to_datetime r).isSome = true ↔
      ((1 ≤ r.month ∧ r.month ≤ 12 ∧ 1 ≤ r.day ∧
        r.day ≤ daysInMonth r.year r.month ∧
        minValidDayNumber ≤ dayNumber r.year r.month r.day ∧
        dayNumber r.year r.month r.day ≤ maxValidDayNumber) ∧
       r.hour ≤ maxTimedeltaHours)) ∧
    (∀ r ∈ load_data rows, to_datetime r = some (tsKey r)) ∧
    List.Pairwise (fun a b => tsKey a ≤ tsKey b) (load_data rows) := by
  have hperm : (load_data rows).Perm (rows.filter (fun r => (to_datetime r).isSome)) :=
    List.perm_insertionSort _ _
  refine ⟨hperm, fun r => ?_, to_datetime_isSome_iff, fun r hr => ?_, ?_⟩
  · rw [hperm.mem_iff]
    exact List.mem_filter
  · have hsome : (to_datetime r).isSome = true :=
      (List.mem_filter.mp (hperm.mem_iff.mp hr)).2
    by_cases hh : r.hour ≤ maxTimedeltaHours
    · rw [to_datetime, if_pos hh] at hsome ⊢
      rw [ymdToDatetime] at hsome ⊢
      split at hsome
      · rename_i hc
        rw [if_pos hc]
        rfl
      · simp at hsome
    · rw [to_datetime, if_neg hh] at hsome
      simp at hsome
  · exact List.sorted_insertionSort _ _

def rawFeb28 : RawRow := ⟨2013, 2, 28, 5⟩

/-- 2013 is not a leap year, so Feb 29 fails the `%Y%m%d` parse and the row
is dropped. -/
def rawFeb29 : RawRow := ⟨2013, 2, 29, 0⟩

def rawMar1 : RawRow := ⟨2013, 3, 1, 23⟩

def demoRows : List RawRow := [rawMar1, rawFeb29, rawFeb28]

/-- C7 witness: on a concrete raw table satisfying the no-overflow side
condition, a row kept by the loader carries the timestamp assembled from
its own date plus hour offset. -/
theorem c7_load_data_witness : to_datetime rawFeb28 = some (tsKey rawFeb28) :=
  (c7_load_data demoRows (by decide)).2.2.2.1 rawFeb28 (by decide)

/-! ## String-order helper lemmas for the mode computation -/

theorem charListLe_refl (l : List Char) : charListLe l l = true := by
  induction l with
  | nil => rfl
  | cons c t ih => simp [charListLe, ih]

theorem charListLe_trans (a b c : List Char) (hab : charListLe a b = true)
    (hbc : charListLe b c = true) : charListLe a c = true := by
  induction a generalizing b c with
  | nil => rfl
  | cons x xs ih =>
    cases b with
    | nil => simp [charListLe] at hab
    | cons y ys =>
      cases c with
      | nil => simp [charListLe] at hbc
      | cons z zs =>
        simp only [charListLe, Bool.or_eq_true, Bool.and_eq_true,
          decide_eq_true_eq, beq_iff_eq] at hab hbc ⊢
        rcases hab with h1 | ⟨he1, hr1⟩
        · rcases hbc with h2 | ⟨he2, hr2⟩
          · exact Or.inl (lt_trans h1 h2)
          · exact Or.inl (he2 ▸ h1)
        · rcases hbc with h2 | ⟨he2, hr2⟩
          · refine Or.inl ?_
            rw [he1]
            exact h2
          · exact Or.inr ⟨he1.trans he2, ih ys zs hr1 hr2⟩

theorem charListLe_total (a b : List Char) :
    charListLe a b = true ∨ charListLe b a = true := by
  induction a generalizing b with
  | nil => exact Or.inl rfl
  | cons x xs ih =>
    cases b with
    | nil => exact Or.inr rfl
    | cons y ys =>
      simp only [charListLe, Bool.or_eq_true, Bool.and_eq_true,
        decide_eq_true_eq, beq_iff_eq]
      rcases lt_trichotomy x y with h | h | h
      · exact Or.inl (Or.inl h)
      · rcases ih ys with h2 | h2
        · exact Or.inl (Or.inr ⟨h, h2⟩)
        · exact Or.inr (Or.inr ⟨h.symm, h2⟩)
      · exact Or.inr (Or.inl h)

theorem strLe_refl (a : String) : strLe a a = true :=
  charListLe_refl a.toList

instance : IsTrans String (fun a b => strLe a b = true) :=
  ⟨fun a b c => charListLe_trans a.toList b.toList c.toList⟩

instance : IsTotal String (fun a b => strLe a b = true) :=
  ⟨fun a b => charListLe_total a.toList b.toList⟩

/-- Characterization of `mode()[0]` on a nonempty series: it is a value of
the series of maximal count, and of all such values it is the least in the
code-point order (pandas returns the tied modes sorted ascending). -/
theorem mode0_spec (l : List String) (hne : l ≠ []) :
    ∃ m, mode0 l = some m ∧ m ∈ l ∧
      (∀ w ∈ l, l.count w ≤ l.count m) ∧
      (∀ w ∈ l, l.count w = l.count m → strLe m w = true) := by
  classical
  set p : String → Bool :=
    fun v => l.all (fun w => decide (l.count w ≤ l.count v)) with hp
  have hcount_all : ∀ v : String, p v = true ↔ ∀ w ∈ l, l.count w ≤ l.count v := by
    intro v
    simp [hp, List.all_eq_true]
  -- an argmax of the count function over the deduplicated values
  have hdne : l.dedup ≠ [] := by
    simp [List.dedup_eq_nil]
    exact hne
  obtain ⟨m₀, hm₀⟩ : ∃ m₀, List.argmax (fun v => l.count v) l.dedup = some m₀ := by
    cases harg : List.argmax (fun v => l.count v) l.dedup with
    | none => exact absurd (List.argmax_eq_none.mp harg) hdne
    | some m₀ => exact ⟨m₀, rfl⟩
  have hm₀mem : m₀ ∈ l.dedup := List.argmax_mem hm₀
  have hm₀max : ∀ w ∈ l, l.count w ≤ l.count m₀ := by
    intro w hw
    exact List.le_of_mem_argmax (List.mem_dedup.mpr hw) hm₀
  have hm₀cand : m₀ ∈ l.dedup.filter p :=
    List.mem_filter.mpr ⟨hm₀mem, (hcount_all m₀).mpr hm₀max⟩
  have hm₀sorted : m₀ ∈ seriesMode l := by
    rw [seriesMode]
    exact (List.perm_insertionSort _ _).mem_iff.mpr hm₀cand
  obtain ⟨m, rest, hcons⟩ : ∃ m rest, seriesMode l = m :: rest := by
    cases hs : seriesMode l with
    | nil =>
      rw [hs] at hm₀sorted
      exact absurd hm₀sorted (List.not_mem_nil m₀)
    | cons m rest => exact ⟨m, rest, rfl⟩
  have hmmem : m ∈ l.dedup.filter p := by
    have : m ∈ seriesMode l := by
      rw [hcons]
      exact List.mem_cons_self m rest
    rw [seriesMode] at this
    exact (List.perm_insertionSort _ _).mem_iff.mp this
  have hmL : m ∈ l := List.mem_dedup.mp (List.mem_of_mem_filter hmmem)
  have hmmax : ∀ w ∈ l, l.count w ≤ l.count m :=
    (hcount_all m).mp (List.mem_filter.mp hmmem).2
  have hsorted : List.Sorted (fun a b => strLe a b = true) (seriesMode l) :=
    List.sorted_insertionSort _ _
  refine ⟨m, by rw [mode0, hcons]; rfl, hmL, hmmax, ?_⟩
  intro w hw hwcount
  have hwcand : w ∈ l.dedup.filter p := by
    refine List.mem_filter.mpr ⟨List.mem_dedup.mpr hw, (hcount_all w).mpr ?_⟩
    intro u hu
    rw [hwcount]
    exact hmmax u hu
  have hwsorted : w ∈ seriesMode l := by
    rw [seriesMode]
    exact (List.perm_insertionSort _ _).mem_iff.mpr hwcand
  rw [hcons] at hwsorted hsorted
  rcases List.mem_cons.mp hwsorted with hwm | hwrest
  · rw [hwm]
    exact strLe_refl m
  · exact List.rel_of_sorted_cons hsorted w hwrest

def sampleRowModerate : Row :=
  { sampleRow with airQuality := "Moderate", psi := some 20 }

/-- A base table whose filtered view holds the air-quality series
`["Moderate", "Good"]` — a tie of counts, first encountered `"Moderate"`. -/
def dfTie : List Row := [sampleRowModerate, sampleRow]

/-- C3 counterexample: on a view whose air-quality values are
`["Moderate", "Good"]` (a tie), the code's modal KPI is `"Good"` — pandas
`mode()` returns the tied modes sorted ascending and `[0]` takes the least —
while the claim's first-encountered tie-break gives `"Moderate"`. -/
theorem c3_counterexample :
    kpiMostCommonAQ (applyFilters dfTie sampleSel) = some "Good" ∧
    firstEncounteredMode ((applyFilters dfTie sampleSel).map Row.airQuality) =
      some "Moderate" ∧
    ("Good" : String) ≠ "Moderate" := by
  refine ⟨by decide, by decide, by decide⟩

/-- C3 amended: all four KPI values are computed over the filtered view, and
the modal air-quality KPI is a most frequent value of the filtered view's
`Air_Quality` series with ties broken by ascending code-point order of the
label (the least tied mode), not by first-encountered order. -/
theorem c3_kpis_mode (df : List Row) (sel : Sel) :
    kpis df sel =
      (kpiAveragePSI (applyFilters df sel), kpiMaximumPSI (applyFilters df sel),
       kpiMostCommonAQ (applyFilters df sel), kpiTotalRecords (applyFilters df sel)) ∧
    ((applyFilters df sel).map Row.airQuality ≠ [] →
      ∃ m, kpiMostCommonAQ (applyFilters df sel) = some m ∧
        m ∈ (applyFilters df sel).map Row.airQuality ∧
        (∀ w ∈ (applyFilters df sel).map Row.airQuality,
          ((applyFilters df sel).map Row.airQuality).count w ≤
            ((applyFilters df sel).map Row.airQuality).count m) ∧
        (∀ w ∈ (applyFilters df sel).map Row.airQuality,
          ((applyFilters df sel).map Row.airQuality).count w =
            ((applyFilters df sel).map Row.airQuality).count m →
              strLe m w = true)) :=
  ⟨rfl, fun h => mode0_spec _ h⟩

/-- C3 witness: the characterization applied to the concrete tie table. -/
theorem c3_kpis_mode_witness :
    ∃ m, kpiMostCommonAQ (applyFilters dfTie sampleSel) = some m ∧
      m ∈ (applyFilters dfTie sampleSel).map Row.airQuality ∧
      (∀ w ∈ (applyFilters dfTie sampleSel).map Row.airQuality,
        ((applyFilters dfTie sampleSel).map Row.airQuality).count w ≤
          ((applyFilters dfTie sampleSel).map Row.airQuality).count m) ∧
      (∀ w ∈ (applyFilters dfTie sampleSel).map Row.airQuality,
        ((applyFilters dfTie sampleSel).map Row.airQuality).count w =
          ((applyFilters dfTie sampleSel).map Row.airQuality).count m →
            strLe m w = true) :=
  (c3_kpis_mode dfTie sampleSel).2 (by decide)

/-! ## Correlation helper lemmas -/

theorem two_mul_sum_le (l : List ℚ) (a : ℚ) :
    2 * a * l.sum ≤ (l.map (fun x => x * x)).sum + (l.length : ℚ) * (a * a) := by
  induction l with
  | nil => simp
  | cons y t ih =>
    simp only [List.sum_cons, List.map_cons, List.length_cons]
    push_cast
    nlinarith [sq_nonneg (y - a), ih]

theorem sq_sum_le_len_mul_sum_sq (l : List ℚ) :
    l.sum * l.sum ≤ (l.length : ℚ) * (l.map (fun x => x * x)).sum := by
  induction l with
  | nil => simp
  | cons y t ih =>
    simp only [List.sum_cons, List.map_cons, List.length_cons]
    push_cast
    nlinarith [two_mul_sum_le t y, ih]

theorem sXX_eq (c : List (ℚ × ℚ)) :
    sXX c = ((c.map Prod.fst).length : ℚ) *
        ((c.map Prod.fst).map (fun x => x * x)).sum
      - (c.map Prod.fst).sum * (c.map Prod.fst).sum := by
  simp only [sXX, sNum, List.map_map, List.length_map]
  rfl

theorem sXX_nonneg (c : List (ℚ × ℚ)) : 0 ≤ sXX c := by
  rw [sXX_eq]
  have h := sq_sum_le_len_mul_sum_sq (c.map Prod.fst)
  linarith

theorem completePairs_swap (xs ys : List (Option ℚ)) :
    completePairs ys xs = (completePairs xs ys).map Prod.swap := by
  induction xs generalizing ys with
  | nil => cases ys <;> rfl
  | cons x xst ih =>
    cases ys with
    | nil => rfl
    | cons y yst =>
      cases x <;> cases y <;>
        simp [completePairs, List.filterMap_cons, Prod.swap] at * <;>
        exact ih yst

theorem sNum_map_swap (ps : List (ℚ × ℚ)) :
    sNum (ps.map Prod.swap) = sNum ps := by
  have hxy : (ps.map Prod.swap).map (fun p => p.1 * p.2) =
      ps.map (fun p => p.1 * p.2) := by
    rw [List.map_map]
    exact List.map_congr_left (fun p _ => mul_comm p.2 p.1)
  have hx : (ps.map Prod.swap).map Prod.fst = ps.map Prod.snd := by
    rw [List.map_map]
    exact List.map_congr_left (fun p _ => rfl)
  have hy : (ps.map Prod.swap).map Prod.snd = ps.map Prod.fst := by
    rw [List.map_map]
    exact List.map_congr_left (fun p _ => rfl)
  simp only [sNum]
  rw [hxy, hx, hy, List.length_map]
  ring

theorem sXX_map_swap (ps : List (ℚ × ℚ)) :
    sXX (ps.map Prod.swap) = sYY ps := by
  simp only [sXX, sYY, List.map_map]
  rfl

theorem sYY_map_swap (ps : List (ℚ × ℚ)) :
    sYY (ps.map Prod.swap) = sXX ps := by
  simp only [sXX, sYY, List.map_map]
  rfl

theorem pearson_comm (xs ys : List (Option ℚ)) :
    pearson ys xs = pearson xs ys := by
  unfold pearson
  rw [completePairs_swap xs ys, sXX_map_swap, sYY_map_swap, sNum_map_swap]
  by_cases hc : sXX (completePairs xs ys) = 0 ∨ sYY (completePairs xs ys) = 0
  · rw [if_pos (Or.symm hc), if_pos hc]
  · rw [if_neg (fun h => hc (Or.symm h)), if_neg hc]
    rw [mul_comm ((sYY (completePairs xs ys) : ℝ))]

theorem completePairs_self_eq (xs : List (Option ℚ)) :
    ∀ p ∈ completePairs xs xs, p.1 = p.2 := by
  induction xs with
  | nil =>
    intro p hp
    simp [completePairs] at hp
  | cons x t ih =>
    intro p hp
    cases x with
    | none =>
      simp only [completePairs, List.zip_cons_cons, List.filterMap_cons] at hp
      exact ih p hp
    | some a =>
      simp only [completePairs, List.zip_cons_cons, List.filterMap_cons] at hp
      rcases List.mem_cons.mp hp with h | h
      · rw [h]
      · exact ih p h

theorem sYY_eq_sXX_of_fst_eq_snd (c : List (ℚ × ℚ)) (h : ∀ p ∈ c, p.1 = p.2) :
    sYY c = sXX c := by
  unfold sYY sXX
  congr 1
  exact List.map_congr_left (fun p hp => by rw [h p hp])

theorem sNum_eq_sXX_of_fst_eq_snd (c : List (ℚ × ℚ)) (h : ∀ p ∈ c, p.1 = p.2) :
    sNum c = sXX c := by
  have e1 : c.map (fun p => p.1 * p.2) = c.map (fun p => p.1 * p.1) :=
    List.map_congr_left (fun p hp => by rw [← h p hp])
  have e2 : c.map Prod.snd = c.map Prod.fst :=
    List.map_congr_left (fun p hp => (h p hp).symm)
  simp only [sXX, sNum, List.map_map, List.length_map]
  rw [e1, e2]
  rfl

theorem pearson_self (xs : List (Option ℚ))
    (h : sXX (completePairs xs xs) ≠ 0) : pearson xs xs = some 1 := by
  have hdiag : ∀ p ∈ completePairs xs xs, p.1 = p.2 := completePairs_self_eq xs
  have hyy : sYY (completePairs xs xs) = sXX (completePairs xs xs) :=
    sYY_eq_sXX_of_fst_eq_snd _ hdiag
  have hnum : sNum (completePairs xs xs) = sXX (completePairs xs xs) :=
    sNum_eq_sXX_of_fst_eq_snd _ hdiag
  have hpos : 0 < sXX (completePairs xs xs) :=
    lt_of_le_of_ne (sXX_nonneg _) (Ne.symm h)
  unfold pearson
  rw [hyy, hnum]
  rw [if_neg (by push_neg; exact ⟨h, h⟩)]
  rw [Real.sqrt_mul_self (by exact_mod_cast hpos.le)]
  rw [div_self (by exact_mod_cast h)]

theorem completePairs_cons_none_left (a : Option ℚ) (xs ys : List (Option ℚ)) :
    completePairs (none :: xs) (a :: ys) = completePairs xs ys := by
  cases a <;> rfl

theorem completePairs_cons_none_right (a : Option ℚ) (xs ys : List (Option ℚ)) :
    completePairs (a :: xs) (none :: ys) = completePairs xs ys := by
  cases a <;> rfl

theorem pearson_cons_none_left (a : Option ℚ) (xs ys : List (Option ℚ)) :
    pearson (none :: xs) (a :: ys) = pearson xs ys := by
  unfold pearson
  rw [completePairs_cons_none_left]

theorem pearson_cons_none_right (a : Option ℚ) (xs ys : List (Option ℚ)) :
    pearson (a :: xs) (none :: ys) = pearson xs ys := by
  unfold pearson
  rw [completePairs_cons_none_right]

/-- C10 counterexample: on a single-row filtered view every column is
constant, so the `PSI` diagonal entry of the correlation matrix is absent
(`NaN` in pandas), not `1` — refuting "every diagonal entry equals 1". -/
theorem c10_counterexample :
    corrEntry [sampleRow] Col.PSI Col.PSI = none ∧ (none : Option ℝ) ≠ some 1 := by
  constructor
  · have hcp : completePairs ([sampleRow].map (colVal Col.PSI))
        ([sampleRow].map (colVal Col.PSI)) = [((5 : ℚ), (5 : ℚ))] := rfl
    have h0 : sXX (completePairs ([sampleRow].map (colVal Col.PSI))
        ([sampleRow].map (colVal Col.PSI))) = 0 := by
      rw [hcp]
      norm_num [sXX, sNum]
    unfold corrEntry pearson
    rw [if_pos (Or.inl h0)]
  · simp

/-- C10 amended: the correlation matrix over the nine numeric columns is
pairwise Pearson correlation computed on pairwise-complete observations
(a row missing a value in either column of a pair is excluded from that
pair), it is symmetric, and a diagonal entry equals 1 whenever the column
has nonzero variance over its pairwise-complete observations; when either
column of a pair has zero variance there (e.g. an empty or single-row view,
or a constant column) the entry is absent (`NaN`), not 1. -/
theorem c10_corr_matrix :
    (∀ (v : List Row) (i j : Col), corrEntry v i j = corrEntry v j i) ∧
    (∀ (v : List Row) (i : Col),
      sXX (completePairs (v.map (colVal i)) (v.map (colVal i))) ≠ 0 →
        corrEntry v i i = some 1) ∧
    (∀ (v : List Row) (i j : Col),
      (sXX (completePairs (v.map (colVal i)) (v.map (colVal j))) = 0 ∨
       sYY (completePairs (v.map (colVal i)) (v.map (colVal j))) = 0) →
        corrEntry v i j = none) ∧
    (∀ (a : Option ℚ) (xs ys : List (Option ℚ)),
      pearson (none :: xs) (a :: ys) = pearson xs ys ∧
      pearson (a :: xs) (none :: ys) = pearson xs ys) :=
  ⟨fun v i j => pearson_comm (v.map (colVal j)) (v.map (colVal i)),
   fun v i h => pearson_self _ h,
   fun v i j h => by unfold corrEntry pearson; rw [if_pos h],
   fun a xs ys => ⟨pearson_cons_none_left a xs ys, pearson_cons_none_right a xs ys⟩⟩

/-- C10 witness: on a concrete two-row view with distinct PSI values the
PSI column has nonzero variance and its diagonal entry is exactly 1. -/
theorem c10_corr_matrix_witness :
    sXX (completePairs (dfTie.map (colVal Col.PSI)) (dfTie.map (colVal Col.PSI))) ≠ 0 ∧
    corrEntry dfTie Col.PSI Col.PSI = some 1 := by
  have hcp : completePairs (dfTie.map (colVal Col.PSI)) (dfTie.map (colVal Col.PSI)) =
      [((20 : ℚ), (20 : ℚ)), ((5 : ℚ), (5 : ℚ))] := rfl
  have h : sXX (completePairs (dfTie.map (colVal Col.PSI))
      (dfTie.map (colVal Col.PSI))) ≠ 0 := by
    rw [hcp]
    norm_num [sXX, sNum]
  exact ⟨h, c10_corr_matrix.2.1 dfTie Col.PSI h⟩
